/-
  Verification of the real-time synchronization core of the claudiomiro
  serve command: path validation (src/commands/serve/api/path-utils.js),
  the semantic file watcher (src/commands/serve/file-watcher.js), the
  initial-snapshot logic and the per-project subscription registry
  (src/commands/serve/websocket.js).

  The JavaScript is shallowly embedded: filesystem access, URI decoding
  and path resolution are oracles passed in as explicit function
  parameters (an oracle returning `none` models the library call
  throwing); JS Maps keyed by strings become Lean functions into Option;
  JS Sets become duplicate-free lists in insertion order; setTimeout
  timers become identifiers allocated from a counter, and a timer
  callback runs only while its identifier is still registered
  (clearTimeout removes the identifier, so a cleared timer never runs).
-/
import Mathlib

set_option linter.unusedVariables false

/-! ## String utilities shared by the embedded modules -/

/-- Numeric value of a decimal digit character. -/
def digitVal (c : Char) : Nat := c.toNat - 48

/-- Tokenizer for numeric-aware (natural) string comparison: maximal
digit runs become `Sum.inl` numeric tokens, every other character is its
own `Sum.inr` token.  The first argument carries the value of the digit
run currently being read. -/
def natTokensAux : Option Nat → List Char → List (Sum Nat Char)
  | none, [] => []
  | some n, [] => [Sum.inl n]
  | none, c :: cs =>
    if c.isDigit then natTokensAux (some (digitVal c)) cs
    else Sum.inr c :: natTokensAux none cs
  | some n, c :: cs =>
    if c.isDigit then natTokensAux (some (n * 10 + digitVal c)) cs
    else Sum.inl n :: Sum.inr c :: natTokensAux none cs

/-- Natural-comparison key of a string. -/
def natKey (s : String) : List (Sum Nat Char) := natTokensAux none s.data

/-- Strict order on tokens: digit runs compare numerically and sort
before non-digit characters, non-digit characters compare by code
point.  Models the `numeric: true` collation used by
`localeCompare(undefined, { numeric: true })` on the ASCII task names
this repository generates. -/
def tokLtB : Sum Nat Char → Sum Nat Char → Bool
  | Sum.inl a, Sum.inl b => decide (a < b)
  | Sum.inl _, Sum.inr _ => true
  | Sum.inr _, Sum.inl _ => false
  | Sum.inr a, Sum.inr b => decide (a < b)

/-- Lexicographic comparison of token lists. -/
def keyLe : List (Sum Nat Char) → List (Sum Nat Char) → Bool
  | [], _ => true
  | _ :: _, [] => false
  | a :: as, b :: bs => if a = b then keyLe as bs else tokLtB a b

/-- Numeric-aware string order: `naturalLe "TASK2" "TASK10" = true`. -/
def naturalLe (a b : String) : Bool := keyLe (natKey a) (natKey b)

/-- Ordered insert for the natural order. -/
def insertNat (x : String) : List String → List String
  | [] => [x]
  | y :: ys => if naturalLe x y then x :: y :: ys else y :: insertNat x ys

/-- `Array.prototype.sort` with the numeric `localeCompare` comparator,
as used on the task-directory lists. -/
def sortByNatural (l : List String) : List String := l.foldr insertNat []

/-- `String.prototype.startsWith` (structural, so that the kernel can
evaluate it on literals). -/
def strStartsWith (s pre : String) : Bool := pre.data.isPrefixOf s.data

/-- Split a character list at `'/'` separators. -/
def splitOnSlashAux (acc : List Char) : List Char → List String
  | [] => [String.mk acc.reverse]
  | c :: cs =>
    if c = '/' then String.mk acc.reverse :: splitOnSlashAux [] cs
    else splitOnSlashAux (c :: acc) cs

/-- `s.split(path.sep)`: the components of a slash-delimited path. -/
def splitOnSlash (s : String) : List String := splitOnSlashAux [] s.data

/-- `path.basename` for the slash-delimited absolute paths this code
handles: the last non-empty path component. -/
def basename (p : String) : String :=
  (splitOnSlash p).foldl (fun acc comp => if comp = "" then acc else comp) ""

/-- `path.join(a, b)` for the simple relative segments this code joins. -/
def pathJoin (a b : String) : String := a ++ "/" ++ b

/-- `/^TASK\d+/.test(name)`: the task-ID pattern test used on directory
names. -/
def startsWithTaskNum : List Char → Bool
  | 'T' :: 'A' :: 'S' :: 'K' :: c :: _ => c.isDigit
  | _ => false

/-- Whether a directory name matches the task-ID pattern. -/
def isTaskDirName (s : String) : Bool := startsWithTaskNum s.data

/-- Attempt to match the regex `TASK\d+` at the head of a character
list, returning the (maximal) digit run on success. -/
def taskMatchAt : List Char → Option (List Char)
  | 'T' :: 'A' :: 'S' :: 'K' :: rest =>
    let ds := rest.takeWhile (fun c => c.isDigit)
    if ds.isEmpty then none else some ds
  | _ => none

/-- Leftmost match of `TASK\d+` in a character list, as
`String.prototype.match` returns it. -/
def findTaskMatch : List Char → Option String
  | [] => none
  | c :: cs =>
    match taskMatchAt (c :: cs) with
    | some ds => some (String.mk ('T' :: 'A' :: 'S' :: 'K' :: ds))
    | none => findTaskMatch cs

/-- `filePath.match(/TASK\d+/)`: the task-ID extraction the watcher
performs on the full file path (leftmost substring match). -/
def extractTaskId (s : String) : Option String := findTaskMatch s.data

/-- Whether a character list contains `".."` as a substring. -/
def listHasDotDot : List Char → Bool
  | '.' :: '.' :: _ => true
  | _ :: rest => listHasDotDot rest
  | [] => false

/-- `decodedPath.includes("..")`: the substring test of the validator. -/
def hasDotDot (s : String) : Bool := listHasDotDot s.data

/-- Modelled from the spec: a "parent-directory traversal segment" is a
whole path component equal to `".."` (spec §4.1 check 1).  Used only to
compare the spec's wording with the validator's substring test. -/
def hasTraversalSegment (s : String) : Bool :=
  (splitOnSlash s).any (fun comp => comp = "..")

/-! ## Path validator (`validateProjectPath`, api/path-utils.js) -/

/-- Environment of `validateProjectPath`: URI decoding, `path.resolve`
and the filesystem.  `decodeURIComponent` and `statSync` return `none`
when the library call throws; Node's `existsSync` never throws. -/
structure FSV where
  decodeURIComponent : String → Option String
  resolve : String → String
  existsSync : String → Bool
  statSync : String → Option Bool

/-- The `{valid, error?, resolvedPath?}` object the validator returns. -/
structure VResult where
  valid : Bool
  error : Option String
  resolvedPath : Option String
deriving DecidableEq, Repr

/-- Error message of the traversal rejection. -/
def traversalMsg : String :=
  "Path traversal detected - paths containing .. are not allowed"

/-- Error message of the outer catch-all handler. -/
def genericMsg : String := "Invalid project path"

/-- `validateProjectPath(projectPath, allowedPaths)`.  Checks in source
order: decode, substring `".."` test, resolve, allow-list membership
(exact or separator-guarded prefix), existence, directory-ness,
state-root presence; any thrown library call lands in the outer catch
and yields the generic error. -/
def validateProjectPath (fsv : FSV) (projectPath : String)
    (allowedPaths : List String) : VResult :=
  match fsv.decodeURIComponent projectPath with
  | none => ⟨false, some genericMsg, none⟩
  | some decodedPath =>
    if hasDotDot decodedPath then
      ⟨false, some traversalMsg, none⟩
    else
      let resolvedPath := fsv.resolve decodedPath
      if 0 < allowedPaths.length &&
         !(allowedPaths.any (fun allowedPath =>
             let resolvedAllowed := fsv.resolve allowedPath
             resolvedPath = resolvedAllowed ||
               strStartsWith resolvedPath (resolvedAllowed ++ "/"))) then
        ⟨false, some "Project path is not in the allowed paths list", none⟩
      else if !fsv.existsSync resolvedPath then
        ⟨false, some "Project path does not exist", none⟩
      else
        match fsv.statSync resolvedPath with
        | none => ⟨false, some genericMsg, none⟩
        | some isDir =>
          if !isDir then
            ⟨false, some "Project path is not a directory", none⟩
          else if !fsv.existsSync (resolvedPath ++ "/.claudiomiro/task-executor") then
            ⟨false, some "Project does not contain .claudiomiro/task-executor/ directory", none⟩
          else
            ⟨true, none, some resolvedPath⟩

/-- `getTaskExecutorPath(projectPath)`. -/
def getTaskExecutorPath (projectPath : String) : String :=
  projectPath ++ "/.claudiomiro/task-executor"

/-! ## Semantic file watcher (`FileWatcher`, file-watcher.js) -/

/-- The fields of a successfully parsed `execution.json`, kept abstract
as key/value pairs (the watcher spreads them into its payload without
inspecting them). -/
def ExecFields := List (String × String)
deriving instance DecidableEq, Repr for ExecFields

/-- The semantic events the watcher emits, one constructor per payload
shape of the classification table.  `taskStatusOk` carries the extracted
task ID next to the spread parsed fields; `taskStatusErr` carries the
task ID and the error message. -/
inductive Emitted where
  | taskStatusOk (taskId : String) (fields : ExecFields)
  | taskStatusErr (taskId : String) (errMsg : String)
  | taskBlueprint (taskId : String)
  | taskReview (taskId : String)
  | promptChanged
  | projectCompleted
  | fileChanged (path : String)
deriving DecidableEq, Repr

/-- `FileWatcher._mapToEvent(filePath)`.  `readExec` is the
`readFileSync` + `JSON.parse` oracle (`none` = read or parse threw). -/
def mapToEvent (readExec : String → Option ExecFields)
    (filePath : String) : Option Emitted :=
  let fileName := basename filePath
  let relativePath := filePath
  let taskId? := extractTaskId filePath
  if fileName = "execution.json" then
    match taskId? with
    | none => none
    | some taskId =>
      match readExec filePath with
      | some execution => some (.taskStatusOk taskId execution)
      | none => some (.taskStatusErr taskId "Failed to parse execution.json")
  else if fileName = "BLUEPRINT.md" then
    match taskId? with
    | none => none
    | some taskId => some (.taskBlueprint taskId)
  else if fileName = "CODE_REVIEW.md" then
    match taskId? with
    | none => none
    | some taskId => some (.taskReview taskId)
  else if fileName = "AI_PROMPT.md" then some .promptChanged
  else if fileName = "done.txt" then some .projectCompleted
  else some (.fileChanged relativePath)

/-- The task-ID prefix of a directory name matching the task-ID
pattern. -/
def taskIdPrefix (comp : String) : Option String :=
  match taskMatchAt comp.data with
  | some ds => some (String.mk ('T' :: 'A' :: 'S' :: 'K' :: ds))
  | none => none

/-- Modelled from the spec: the task-ID of "the nearest ancestor
directory matching the task-ID pattern" (spec §4.2) — the deepest
directory component of the path, basename excluded, that matches
`^TASK\d+`. -/
def nearestAncestorTaskId (filePath : String) : Option String :=
  ((splitOnSlash filePath).dropLast.filterMap taskIdPrefix).getLast?

/-- Modelled from the spec: the §4.2 classification table verbatim,
with the task ID taken from the nearest ancestor task directory. -/
def specMapToEvent (readExec : String → Option ExecFields)
    (filePath : String) : Option Emitted :=
  match basename filePath, nearestAncestorTaskId filePath with
  | "execution.json", none => none
  | "execution.json", some t =>
    some (match readExec filePath with
          | some fields => .taskStatusOk t fields
          | none => .taskStatusErr t "Failed to parse execution.json")
  | "BLUEPRINT.md", none => none
  | "BLUEPRINT.md", some t => some (.taskBlueprint t)
  | "CODE_REVIEW.md", none => none
  | "CODE_REVIEW.md", some t => some (.taskReview t)
  | "AI_PROMPT.md", _ => some .promptChanged
  | "done.txt", _ => some .projectCompleted
  | _, _ => some (.fileChanged filePath)

/-- The §4.2 classification table with the task-ID extraction the code
actually performs (leftmost `TASK\d+` substring match on the full
path). -/
def specMapToEventAmended (readExec : String → Option ExecFields)
    (filePath : String) : Option Emitted :=
  match basename filePath, extractTaskId filePath with
  | "execution.json", none => none
  | "execution.json", some t =>
    some (match readExec filePath with
          | some fields => .taskStatusOk t fields
          | none => .taskStatusErr t "Failed to parse execution.json")
  | "BLUEPRINT.md", none => none
  | "BLUEPRINT.md", some t => some (.taskBlueprint t)
  | "CODE_REVIEW.md", none => none
  | "CODE_REVIEW.md", some t => some (.taskReview t)
  | "AI_PROMPT.md", _ => some .promptChanged
  | "done.txt", _ => some .projectCompleted
  | _, _ => some (.fileChanged filePath)

/-- State of one `FileWatcher`: whether the underlying watch handle is
live, the debounce-timer map as (path, timer-identifier) pairs, the
timer-identifier allocator, and the log of events emitted so far. -/
structure WatcherState where
  watcher : Bool
  debounceTimers : List (String × Nat)
  nextTimer : Nat
  emitted : List Emitted
deriving DecidableEq, Repr

/-- A freshly constructed `FileWatcher` after a successful `start`. -/
def startedWatcher : WatcherState :=
  { watcher := true, debounceTimers := [], nextTimer := 0, emitted := [] }

/-- `FileWatcher._handleFileChange(filePath)`: clear any existing timer
for the path and register a fresh one. -/
def handleFileChange (filePath : String) (s : WatcherState) : WatcherState :=
  { s with
    debounceTimers :=
      (s.debounceTimers.filter (fun e => e.1 ≠ filePath)) ++
        [(filePath, s.nextTimer)],
    nextTimer := s.nextTimer + 1 }

/-- The debounce-timer callback for `(filePath, id)`.  A timer that has
been cleared (its identifier is no longer registered) never runs; an
uncancelled timer deletes its map entry, classifies the path and emits
the resulting event if there is one. -/
def fireTimer (readExec : String → Option ExecFields) (filePath : String)
    (id : Nat) (s : WatcherState) : WatcherState :=
  if (filePath, id) ∈ s.debounceTimers then
    let s' := { s with
      debounceTimers := s.debounceTimers.filter (fun e => e.1 ≠ filePath) }
    match mapToEvent readExec filePath with
    | some ev => { s' with emitted := s'.emitted ++ [ev] }
    | none => s'
  else s

/-- A burst of `n` raw filesystem events on one path, with no timer
expiring in between (the burst fits inside the settle window). -/
def applyRaws (filePath : String) : Nat → WatcherState → WatcherState
  | 0, s => s
  | n + 1, s => applyRaws filePath n (handleFileChange filePath s)

/-- Run a sequence of timer expirations. -/
def runFires (readExec : String → Option ExecFields) :
    List (String × Nat) → WatcherState → WatcherState
  | [], s => s
  | (p, id) :: rest, s => runFires readExec rest (fireTimer readExec p id s)

/-- `FileWatcher.stop()`: close the watch handle and clear every
pending debounce timer. -/
def stopWatcher (s : WatcherState) : WatcherState :=
  { watcher := false, debounceTimers := [], nextTimer := s.nextTimer,
    emitted := s.emitted }

/-! ## Initial snapshot (`getInitialState`, websocket.js) -/

/-- Filesystem oracle of `getInitialState`.  `readdirSync` and
`statIsDir` return `none` when the call throws; `readParseExec` bundles
`readFileSync` + `JSON.parse` and returns `none` when either throws. -/
structure SnapFS where
  readdirSync : String → Option (List String)
  statIsDir : String → Option Bool
  existsSync : String → Bool
  readParseExec : String → Option ExecFields

/-- A task's entry in the snapshot: the parsed status document, or the
sentinel error object substituted on read/parse failure. -/
inductive TaskEntry where
  | parsed (fields : ExecFields)
  | parseError
deriving DecidableEq, Repr

/-- The snapshot object (the real object also carries a wall-clock
`timestamp`, which has no counterpart in this embedding).  `tasks` is
the key/value object in insertion order. -/
structure Snapshot where
  projectPath : String
  tasks : List (String × TaskEntry)
  error : Option String
deriving DecidableEq, Repr

/-- `getInitialState(projectPath)` translated clause by clause:
enumerate the state root (a throw is caught and yields the empty-tasks
error result); keep entries that stat as directories (a throwing stat
is caught per entry and drops it) and match the task-ID pattern; sort
with the numeric comparator; then loop, including each task that has an
`execution.json` either as its parsed fields or as the parse-failure
sentinel, and omitting tasks without one. -/
def getInitialState (fs : SnapFS) (projectPath : String) : Snapshot :=
  let taskExecutorPath := getTaskExecutorPath projectPath
  match fs.readdirSync taskExecutorPath with
  | none =>
    { projectPath := projectPath, tasks := [],
      error := some "Failed to read project state" }
  | some names =>
    let tasks := sortByNatural (names.filter (fun name =>
      let fullPath := pathJoin taskExecutorPath name
      match fs.statIsDir fullPath with
      | none => false
      | some isDir => isDir && isTaskDirName name))
    let taskStates := tasks.foldl (fun acc taskId =>
      let executionPath :=
        pathJoin (pathJoin taskExecutorPath taskId) "execution.json"
      if fs.existsSync executionPath then
        match fs.readParseExec executionPath with
        | some execution => acc ++ [(taskId, TaskEntry.parsed execution)]
        | none => acc ++ [(taskId, TaskEntry.parseError)]
      else acc) []
    { projectPath := projectPath, tasks := taskStates, error := none }

/-- Modelled from the spec: the reference snapshot definition of §4.3 —
task subdirectories of the state root matching the task-ID pattern
(directories that cannot be stat'd are skipped), sorted naturally; each
task with a status document contributes its parsed object, or an error
entry when reading/parsing fails; tasks without a status document are
omitted; a catastrophic read failure of the state root yields an empty
tasks map plus an error field. -/
def snapshotSpec (fs : SnapFS) (projectPath : String) : Snapshot :=
  let root := getTaskExecutorPath projectPath
  match fs.readdirSync root with
  | none =>
    { projectPath := projectPath, tasks := [],
      error := some "Failed to read project state" }
  | some names =>
    let ids := sortByNatural (names.filter (fun n =>
      ((fs.statIsDir (pathJoin root n)).getD false) && isTaskDirName n))
    let entries := ids.filterMap (fun id =>
      let doc := pathJoin (pathJoin root id) "execution.json"
      if fs.existsSync doc then
        some (id, match fs.readParseExec doc with
                  | some fields => TaskEntry.parsed fields
                  | none => TaskEntry.parseError)
      else none)
    { projectPath := projectPath, tasks := entries, error := none }

/-! ## Subscription registry / broadcast hub (websocket.js) -/

/-- Frames the registry sends to one client during an operation. -/
inductive Frame where
  | projectState (projectPath : String)
  | errorFrame (msg : String)
deriving DecidableEq, Repr

/-- State of the hub.  `projectClients` and `projectWatchers` are the
two Maps of `createWebSocketHandler` (a JS Map holds at most one value
per key, hence functions into `Option`); a client set is a duplicate-
free list in insertion order; `currentProject` is the `ws.currentProject`
field of each client.  Watcher instances are identified by numbers
drawn from `nextWatcherId`, and `stoppedWatchers` logs every watcher
whose `stop()` was called. -/
structure HubState where
  projectClients : String → Option (List Nat)
  projectWatchers : String → Option Nat
  currentProject : Nat → Option String
  nextWatcherId : Nat
  stoppedWatchers : List Nat

/-- The hub as created: both maps empty. -/
def initHub : HubState :=
  { projectClients := fun _ => none, projectWatchers := fun _ => none,
    currentProject := fun _ => none, nextWatcherId := 0,
    stoppedWatchers := [] }

/-- `unsubscribeClient(ws, projectPath)`: remove the client from the
project's set; when the set empties, delete it and stop and delete the
project's watcher.  (The code does not clear `ws.currentProject`.) -/
def unsubscribeClient (c : Nat) (projectPath : String) (s : HubState) :
    HubState :=
  match s.projectClients projectPath with
  | none => s
  | some clients =>
    let clients' := clients.erase c
    if clients'.isEmpty then
      let s1 := { s with projectClients := fun q =>
        if q = projectPath then none else s.projectClients q }
      match s1.projectWatchers projectPath with
      | some w =>
        { s1 with
          projectWatchers := fun q =>
            if q = projectPath then none else s1.projectWatchers q,
          stoppedWatchers := w :: s1.stoppedWatchers }
      | none => s1
    else
      { s with projectClients := fun q =>
        if q = projectPath then some clients' else s.projectClients q }

/-- `subscribeClient(ws, projectPath)`: unsubscribe from the previous
project if any; add the client to the target set (creating it if
absent) and point `ws.currentProject` at it; if the project has no
watcher, construct one and `start` it — `startOk` says whether `start`
succeeds; on failure the watcher is not registered (the catch branch) —
and finally send the initial snapshot frame.  Returns the new state and
the frames sent to the subscribing client. -/
def subscribeClient (startOk : Bool) (c : Nat) (projectPath : String)
    (s : HubState) : HubState × List Frame :=
  let s1 :=
    match s.currentProject c with
    | some prev => unsubscribeClient c prev s
    | none => s
  let clients := (s1.projectClients projectPath).getD []
  let clients' := if c ∈ clients then clients else clients ++ [c]
  let s2 := { s1 with
    projectClients := fun q =>
      if q = projectPath then some clients' else s1.projectClients q,
    currentProject := fun d =>
      if d = c then some projectPath else s1.currentProject d }
  let s3 :=
    if (s2.projectWatchers projectPath).isNone then
      if startOk then
        { s2 with
          projectWatchers := fun q =>
            if q = projectPath then some s2.nextWatcherId
            else s2.projectWatchers q,
          nextWatcherId := s2.nextWatcherId + 1 }
      else s2
    else s2
  (s3, [Frame.projectState projectPath])

/-- One registry operation: a `subscribeClient` call (with the success
of the watcher start it may attempt) or an `unsubscribeClient` call. -/
inductive HubOp where
  | sub (c : Nat) (projectPath : String) (startOk : Bool)
  | unsub (c : Nat) (projectPath : String)

/-- Whether the operation's watcher start (if any) succeeds. -/
def HubOp.startsOk : HubOp → Bool
  | .sub _ _ ok => ok
  | .unsub _ _ => true

/-- Apply one operation to the hub. -/
def applyOp (s : HubState) : HubOp → HubState
  | .sub c p ok => (subscribeClient ok c p s).1
  | .unsub c p => unsubscribeClient c p s

/-- Run a sequence of registry operations. -/
def runOps (ops : List HubOp) (s : HubState) : HubState :=
  ops.foldl applyOp s

/-- Whether the project's subscriber set is non-empty. -/
def clientsNonempty (s : HubState) (p : String) : Bool :=
  match s.projectClients p with
  | some clients => !clients.isEmpty
  | none => false

/-- Whether a watcher instance exists for the project. -/
def watcherExists (s : HubState) (p : String) : Bool :=
  (s.projectWatchers p).isSome

/-- The registry invariant: every registered client set is non-empty
(empty sets are deleted), and a watcher exists for a path exactly when
that path's subscriber set is non-empty. -/
def HubInv (s : HubState) : Prop :=
  (∀ p clients, s.projectClients p = some clients → clients ≠ []) ∧
  (∀ p, watcherExists s p = clientsNonempty s p)

/-- The in-band `subscribe:project` message handler of
`handleConnection`: re-validate the carried path; on success call
`subscribeClient` with the resolved path; on failure send an error
frame.  The returned Bool is whether the handler closed the connection
(it never does on this message). -/
def handleSubscribeMessage (fsv : FSV) (allowedPaths : List String)
    (startOk : Bool) (c : Nat) (newProjectPath : String) (s : HubState) :
    HubState × List Frame × Bool :=
  let newValidation := validateProjectPath fsv newProjectPath allowedPaths
  if newValidation.valid then
    let r := subscribeClient startOk c (newValidation.resolvedPath.getD "") s
    (r.1, r.2, false)
  else
    (s, [Frame.errorFrame "Invalid project path"], false)

/-! ## Helper notions and lemmas -/

/-- The allow-list check passes: no allow-list configured, or the
resolved path equals an allowed root or sits beneath one. -/
def allowListOk (fsv : FSV) (resolved : String)
    (allowedPaths : List String) : Bool :=
  allowedPaths.isEmpty ||
    allowedPaths.any (fun allowedPath =>
      let resolvedAllowed := fsv.resolve allowedPath
      resolved = resolvedAllowed ||
        strStartsWith resolved (resolvedAllowed ++ "/"))

/-- A validator environment where decoding and resolution are the
identity and every path exists and is a directory. -/
def allOkFSV : FSV := ⟨fun s => some s, fun s => s, fun _ => true, fun _ => some true⟩

/-- A validator environment where nothing exists on disk. -/
def notExistFSV : FSV := ⟨fun s => some s, fun s => s, fun _ => false, fun _ => none⟩

theorem allow_guard (fsv : FSV) (resolved : String)
    (allowedPaths : List String) :
    (decide (0 < allowedPaths.length) &&
      !(allowedPaths.any (fun allowedPath =>
          let resolvedAllowed := fsv.resolve allowedPath
          resolved = resolvedAllowed ||
            strStartsWith resolved (resolvedAllowed ++ "/")))) =
      !(allowListOk fsv resolved allowedPaths) := by
  cases allowedPaths <;> simp [allowListOk]

/-! ## Claim theorems -/

/-- C5: the path validator's rejection reason follows the exact §4.1
precedence — traversal check first, then allow-list membership, then
existence, then directory-ness, then state-root presence, short-
circuiting on the first failure (in particular a path that both
traverses parents and does not exist is rejected as traversal, since
the traversal clause holds for every filesystem oracle); on success the
validator returns the canonicalized absolute path. -/
theorem C5_validator_precedence (fsv : FSV) (projectPath : String)
    (allowedPaths : List String) (decoded : String)
    (hdec : fsv.decodeURIComponent projectPath = some decoded) :
    (hasDotDot decoded = true →
      validateProjectPath fsv projectPath allowedPaths =
        ⟨false, some traversalMsg, none⟩) ∧
    (hasDotDot decoded = false →
     allowListOk fsv (fsv.resolve decoded) allowedPaths = false →
      validateProjectPath fsv projectPath allowedPaths =
        ⟨false, some "Project path is not in the allowed paths list", none⟩) ∧
    (hasDotDot decoded = false →
     allowListOk fsv (fsv.resolve decoded) allowedPaths = true →
     fsv.existsSync (fsv.resolve decoded) = false →
      validateProjectPath fsv projectPath allowedPaths =
        ⟨false, some "Project path does not exist", none⟩) ∧
    (hasDotDot decoded = false →
     allowListOk fsv (fsv.resolve decoded) allowedPaths = true →
     fsv.existsSync (fsv.resolve decoded) = true →
     fsv.statSync (fsv.resolve decoded) = some false →
      validateProjectPath fsv projectPath allowedPaths =
        ⟨false, some "Project path is not a directory", none⟩) ∧
    (hasDotDot decoded = false →
     allowListOk fsv (fsv.resolve decoded) allowedPaths = true →
     fsv.existsSync (fsv.resolve decoded) = true →
     fsv.statSync (fsv.resolve decoded) = some true →
     fsv.existsSync (fsv.resolve decoded ++ "/.claudiomiro/task-executor") = false →
      validateProjectPath fsv projectPath allowedPaths =
        ⟨false, some "Project does not contain .claudiomiro/task-executor/ directory", none⟩) ∧
    (hasDotDot decoded = false →
     allowListOk fsv (fsv.resolve decoded) allowedPaths = true →
     fsv.existsSync (fsv.resolve decoded) = true →
     fsv.statSync (fsv.resolve decoded) = some true →
     fsv.existsSync (fsv.resolve decoded ++ "/.claudiomiro/task-executor") = true →
      validateProjectPath fsv projectPath allowedPaths =
        ⟨true, none, some (fsv.resolve decoded)⟩) := by
  refine ⟨?_, ?_, ?_, ?_, ?_, ?_⟩ <;>
    intro h1 <;>
    simp only [validateProjectPath, hdec, h1, allow_guard] <;>
    simp_all

/-- C5 witness: a path that both traverses parents and does not exist
on disk is rejected as traversal. -/
theorem C5_validator_precedence_witness :
    validateProjectPath notExistFSV "/a/../b" [] =
      ⟨false, some traversalMsg, none⟩ :=
  (C5_validator_precedence notExistFSV "/a/../b" [] "/a/../b" rfl).1 rfl

/-- C9: `validateProjectPath` is total and always returns a well-shaped
result (totality itself is by construction in this embedding; the
oracles returning `none` model the library calls throwing): a valid
result carries a resolved path and no error, an invalid result carries
an error message; a throwing `decodeURIComponent`, or a throwing
`statSync` reached after the earlier checks pass, lands in the outer
catch and produces the generic `Invalid project path` failure. -/
theorem C9_validator_total (fsv : FSV) (projectPath : String)
    (allowedPaths : List String) :
    ((validateProjectPath fsv projectPath allowedPaths).valid = true →
      (validateProjectPath fsv projectPath allowedPaths).error = none ∧
      (validateProjectPath fsv projectPath allowedPaths).resolvedPath.isSome = true) ∧
    ((validateProjectPath fsv projectPath allowedPaths).valid = false →
      (validateProjectPath fsv projectPath allowedPaths).error.isSome = true ∧
      (validateProjectPath fsv projectPath allowedPaths).resolvedPath = none) ∧
    (fsv.decodeURIComponent projectPath = none →
      validateProjectPath fsv projectPath allowedPaths =
        ⟨false, some genericMsg, none⟩) ∧
    (∀ decoded, fsv.decodeURIComponent projectPath = some decoded →
      hasDotDot decoded = false →
      allowListOk fsv (fsv.resolve decoded) allowedPaths = true →
      fsv.existsSync (fsv.resolve decoded) = true →
      fsv.statSync (fsv.resolve decoded) = none →
      validateProjectPath fsv projectPath allowedPaths =
        ⟨false, some genericMsg, none⟩) := by
  unfold validateProjectPath
  cases hdec : fsv.decodeURIComponent projectPath with
  | none => simp
  | some decoded =>
    dsimp only
    refine ⟨?_, ?_, by simp, ?_⟩
    · repeat' split
      all_goals simp
    · repeat' split
      all_goals simp
    · intro d hd hdot hallow hex hstat
      injection hd with hd2
      subst hd2
      rw [allow_guard]
      simp [hdot, hallow, hex, hstat]

/-- C9 witness: a malformed URL encoding (decoding throws) yields the
well-shaped generic failure instead of an exception. -/
theorem C9_validator_total_witness :
    validateProjectPath ⟨fun _ => none, fun s => s, fun _ => true, fun _ => some true⟩
      "/%zz" [] = ⟨false, some genericMsg, none⟩ :=
  (C9_validator_total ⟨fun _ => none, fun s => s, fun _ => true, fun _ => some true⟩
    "/%zz" []).2.2.1 rfl

/-- C8 counterexample: the decoded path `/a/b..c` contains `".."` only
inside a single file name — no parent-directory traversal segment —
yet the validator rejects it as path traversal, because the code tests
for the substring `".."` rather than for a traversal segment. -/
theorem C8_traversal_counterexample :
    (validateProjectPath allOkFSV "/a/b..c" []).error = some traversalMsg ∧
    hasTraversalSegment "/a/b..c" = false := by decide

/-- C8 amended: the validator rejects with the traversal reason exactly
when the URL-decoded string contains `".."` as a substring (anywhere,
including inside a single name). -/
theorem C8_traversal_amended (fsv : FSV) (projectPath : String)
    (allowedPaths : List String) (decoded : String)
    (hdec : fsv.decodeURIComponent projectPath = some decoded) :
    (validateProjectPath fsv projectPath allowedPaths).error = some traversalMsg ↔
      hasDotDot decoded = true := by
  constructor
  · intro h
    by_contra hnot
    rw [Bool.not_eq_true] at hnot
    unfold validateProjectPath at h
    rw [hdec] at h
    dsimp only at h
    rw [hnot] at h
    repeat' split at h
    all_goals simp_all [traversalMsg, genericMsg]
  · intro h
    simp [validateProjectPath, hdec, h]

/-- C8 witness: a genuine traversal segment is rejected as traversal. -/
theorem C8_traversal_amended_witness :
    (validateProjectPath allOkFSV "/x/../y" []).error = some traversalMsg :=
  (C8_traversal_amended allOkFSV "/x/../y" [] "/x/../y" rfl).2 rfl

/-- C3 counterexample: for `/r/TASK1/TASK2/BLUEPRINT.md` the nearest
ancestor directory matching the task-ID pattern is `TASK2`, but the
code's regex takes the leftmost `TASK\d+` substring of the whole path
and emits `task:blueprint` with taskId `TASK1` — the claim's
"nearest ancestor" description of the extraction is false. -/
theorem C3_nearest_ancestor_counterexample :
    mapToEvent (fun _ => none) "/r/TASK1/TASK2/BLUEPRINT.md" =
      some (Emitted.taskBlueprint "TASK1") ∧
    specMapToEvent (fun _ => none) "/r/TASK1/TASK2/BLUEPRINT.md" =
      some (Emitted.taskBlueprint "TASK2") ∧
    mapToEvent (fun _ => none) "/r/TASK1/TASK2/BLUEPRINT.md" ≠
      specMapToEvent (fun _ => none) "/r/TASK1/TASK2/BLUEPRINT.md" := by decide

/-- C3 amended: the watcher's classification matches the §4.2 table —
status document to `task:status` with parsed fields or a
taskId-plus-error payload, blueprint to `task:blueprint`, review to
`task:review`, prompt document to `prompt:changed`, completion marker
to `project:completed`, anything else to `file:changed` with the path,
and suppression of status/blueprint/review files without an extractable
task ID — with the task ID taken as the leftmost `TASK\d+` substring
match on the full path (not the nearest ancestor task directory). -/
theorem C3_classification_amended (readExec : String → Option ExecFields)
    (filePath : String) :
    mapToEvent readExec filePath = specMapToEventAmended readExec filePath := by
  unfold mapToEvent specMapToEventAmended
  by_cases h1 : basename filePath = "execution.json" <;>
  by_cases h2 : basename filePath = "BLUEPRINT.md" <;>
  by_cases h3 : basename filePath = "CODE_REVIEW.md" <;>
  by_cases h4 : basename filePath = "AI_PROMPT.md" <;>
  by_cases h5 : basename filePath = "done.txt" <;>
    simp_all <;>
    cases extractTaskId filePath <;>
    cases readExec filePath <;>
    simp_all

theorem applyRaws_spec (P : String) (n : Nat) (hn : 1 ≤ n) :
    ∀ s : WatcherState, applyRaws P n s =
      { watcher := s.watcher,
        debounceTimers :=
          s.debounceTimers.filter (fun e => e.1 ≠ P) ++ [(P, s.nextTimer + n - 1)],
        nextTimer := s.nextTimer + n,
        emitted := s.emitted } := by
  induction n with
  | zero => omega
  | succ m ih =>
    intro s
    by_cases hm : 1 ≤ m
    · show applyRaws P m (handleFileChange P s) = _
      rw [ih hm]
      simp only [handleFileChange, List.filter_append]
      congr 1
      · simp [List.filter]
      · omega
    · have hm0 : m = 0 := by omega
      subst hm0
      show applyRaws P 0 (handleFileChange P s) = _
      simp [applyRaws, handleFileChange]

/-- C2 counterexample: two raw events inside the settle window on
`/p/BLUEPRINT.md` — a blueprint file with no extractable task ID —
followed by the expiry of the surviving timer emit zero semantic
events, not exactly one: classification suppresses the event, so the
claim's "emits exactly one semantic event for P" fails for this P. -/
theorem C2_coalescing_counterexample :
    (runFires (fun _ => none) [("/p/BLUEPRINT.md", 1)]
      (applyRaws "/p/BLUEPRINT.md" 2 startedWatcher)).emitted.length = 0 ∧
    (applyRaws "/p/BLUEPRINT.md" 2 startedWatcher).debounceTimers ≠ [] := by decide

/-- C2 amended: for every burst of N ≥ 1 raw events on path P inside
the settle window, the raw events emit nothing themselves and leave
exactly one outstanding timer for P (each new raw event cancels the
previous timer and schedules a fresh one — the cancelled identifiers
can no longer fire); when the surviving timer fires, the timer entry is
deleted and classification+emit runs exactly once, appending exactly
the classified event when classification yields one and nothing when
the path is suppressed. -/
theorem C2_debounce_amended (readExec : String → Option ExecFields)
    (P : String) (n : Nat) (hn : 1 ≤ n) (s : WatcherState) :
    (applyRaws P n s).emitted = s.emitted ∧
    (applyRaws P n s).debounceTimers.filter (fun e => e.1 = P) =
      [(P, s.nextTimer + n - 1)] ∧
    (fireTimer readExec P (s.nextTimer + n - 1) (applyRaws P n s)).emitted =
      s.emitted ++ (mapToEvent readExec P).toList ∧
    (fireTimer readExec P (s.nextTimer + n - 1) (applyRaws P n s)).debounceTimers.filter
      (fun e => e.1 = P) = [] ∧
    (∀ id, (P, id) ∉ (applyRaws P n s).debounceTimers →
      fireTimer readExec P id (applyRaws P n s) = applyRaws P n s) := by
  rw [applyRaws_spec P n hn s]
  refine ⟨rfl, ?_, ?_, ?_, ?_⟩
  · simp [List.filter_append, List.filter_filter]
  · have hmem : (P, s.nextTimer + n - 1) ∈
        s.debounceTimers.filter (fun e => e.1 ≠ P) ++ [(P, s.nextTimer + n - 1)] := by
      simp
    simp only [fireTimer, if_pos (by simpa using hmem)]
    cases mapToEvent readExec P <;> simp
  · have hmem : (P, s.nextTimer + n - 1) ∈
        s.debounceTimers.filter (fun e => e.1 ≠ P) ++ [(P, s.nextTimer + n - 1)] := by
      simp
    simp only [fireTimer, if_pos (by simpa using hmem)]
    cases mapToEvent readExec P <;>
      simp [List.filter_append, List.filter_filter]
  · intro id hid
    have hne : id ≠ s.nextTimer + n - 1 := by
      intro h
      subst h
      simp at hid
    simp [fireTimer, hid, hne]

/-- C2 witness: a burst of three raw events on a status document whose
read fails emits exactly the single parse-failure status event. -/
theorem C2_debounce_amended_witness :
    (fireTimer (fun _ => none) "/t/TASK1/execution.json" 2
      (applyRaws "/t/TASK1/execution.json" 3 startedWatcher)).emitted =
      [Emitted.taskStatusErr "TASK1" "Failed to parse execution.json"] :=
  ((C2_debounce_amended (fun _ => none) "/t/TASK1/execution.json" 3 (by decide)
    startedWatcher).2.2.1).trans (by decide)

theorem runFires_stopped (readExec : String → Option ExecFields)
    (fires : List (String × Nat)) :
    ∀ s : WatcherState, s.debounceTimers = [] → runFires readExec fires s = s := by
  induction fires with
  | nil => intro s _; rfl
  | cons f rest ih =>
    intro s hs
    obtain ⟨p, id⟩ := f
    show runFires readExec rest (fireTimer readExec p id s) = s
    have : fireTimer readExec p id s = s := by
      simp [fireTimer, hs]
    rw [this]
    exact ih s hs

/-- C6: after `stop()` the watcher never emits again — stop cancels
every pending debounce timer outright, so any sequence of timer
expirations after stop leaves the emitted log unchanged (the underlying
watch is closed, so no further raw events arrive either); stop is
idempotent, and a stop while idle is a no-op. -/
theorem C6_stop_semantics (readExec : String → Option ExecFields)
    (s : WatcherState) (fires : List (String × Nat)) :
    (stopWatcher s).debounceTimers = [] ∧
    (runFires readExec fires (stopWatcher s)).emitted = s.emitted ∧
    stopWatcher (stopWatcher s) = stopWatcher s ∧
    (s.watcher = false → s.debounceTimers = [] → stopWatcher s = s) := by
  refine ⟨rfl, ?_, rfl, ?_⟩
  · rw [runFires_stopped readExec fires (stopWatcher s) rfl]
    rfl
  · intro h1 h2
    cases s
    simp_all [stopWatcher]

/-- C6 witness: stopping an idle watcher is a no-op. -/
theorem C6_stop_semantics_witness :
    stopWatcher ⟨false, [], 5, []⟩ = ⟨false, [], 5, []⟩ :=
  (C6_stop_semantics (fun _ => none) ⟨false, [], 5, []⟩ []).2.2.2 rfl rfl

theorem snapshot_loop_eq (fs : SnapFS) (root : String) (l : List String) :
    ∀ acc : List (String × TaskEntry),
      l.foldl (fun acc taskId =>
        if fs.existsSync (pathJoin (pathJoin root taskId) "execution.json") then
          match fs.readParseExec (pathJoin (pathJoin root taskId) "execution.json") with
          | some execution => acc ++ [(taskId, TaskEntry.parsed execution)]
          | none => acc ++ [(taskId, TaskEntry.parseError)]
        else acc) acc =
      acc ++ l.filterMap (fun id =>
        if fs.existsSync (pathJoin (pathJoin root id) "execution.json") then
          some (id, match fs.readParseExec (pathJoin (pathJoin root id) "execution.json") with
                    | some fields => TaskEntry.parsed fields
                    | none => TaskEntry.parseError)
        else none) := by
  induction l with
  | nil => intro acc; simp
  | cons x xs ih =>
    intro acc
    simp only [List.foldl_cons, List.filterMap_cons]
    by_cases hx : fs.existsSync (pathJoin (pathJoin root x) "execution.json")
    · cases hr : fs.readParseExec (pathJoin (pathJoin root x) "execution.json") <;>
        simp [hx, hr, ih]
    · simp [hx, ih]

/-- C4: the initial snapshot equals the reference definition — task
subdirectories of the state root matching the task-ID pattern (entries
whose stat throws are skipped), sorted naturally; tasks with a
parseable status document included as the parsed object, tasks whose
status document fails to read or parse included as an error entry,
tasks with no status document omitted; a catastrophic read failure of
the state root yields an empty tasks map plus an error field instead of
an exception.  The second conjunct pins the numeric-aware ordering on
the spec's own example. -/
theorem C4_snapshot_refines (fs : SnapFS) (projectPath : String) :
    getInitialState fs projectPath = snapshotSpec fs projectPath ∧
    sortByNatural ["TASK2", "TASK10", "TASK1"] = ["TASK1", "TASK2", "TASK10"] := by
  constructor
  · unfold getInitialState snapshotSpec
    dsimp only
    cases hrd : fs.readdirSync (getTaskExecutorPath projectPath) with
    | none => rfl
    | some names =>
      dsimp only
      have hfil : (fun name =>
          match fs.statIsDir (pathJoin (getTaskExecutorPath projectPath) name) with
          | none => false
          | some isDir => isDir && isTaskDirName name) =
          (fun n => ((fs.statIsDir (pathJoin (getTaskExecutorPath projectPath) n)).getD false)
            && isTaskDirName n) := by
        funext n
        cases fs.statIsDir (pathJoin (getTaskExecutorPath projectPath) n) <;> rfl
      rw [hfil, snapshot_loop_eq]
      simp
  · decide

/-- C7: an in-band re-subscribe message whose project path fails
validation makes the gateway send an error frame to the client while
leaving the hub state — and hence the client's prior subscription —
completely unchanged and the connection open; the branch depends only
on `validateProjectPath` of the new path, independently of the
connection's earlier authorization. -/
theorem C7_invalid_resubscribe (fsv : FSV) (allowedPaths : List String)
    (startOk : Bool) (c : Nat) (newProjectPath : String) (s : HubState)
    (h : (validateProjectPath fsv newProjectPath allowedPaths).valid = false) :
    handleSubscribeMessage fsv allowedPaths startOk c newProjectPath s =
      (s, [Frame.errorFrame "Invalid project path"], false) := by
  simp [handleSubscribeMessage, h]

/-- C7 witness: a re-subscribe to `..` (a traversal path) is refused
with an error frame and no state change. -/
theorem C7_invalid_resubscribe_witness :
    handleSubscribeMessage allOkFSV [] true 0 ".." initHub =
      (initHub, [Frame.errorFrame "Invalid project path"], false) :=
  C7_invalid_resubscribe allOkFSV [] true 0 ".." initHub (by decide)

/-- C10: when a client that is the sole subscriber of a project
re-subscribes to that same project, `subscribeClient` first runs a full
unsubscribe — stopping the running watcher — and then constructs and
starts a brand-new watcher (a fresh instance, not the old one) and
sends the client a fresh snapshot frame; re-subscribing to the current
project is not a no-op. -/
theorem C10_resubscribe_same_path (s : HubState) (c : Nat) (p : String) (w : Nat)
    (hc : s.projectClients p = some [c])
    (hcur : s.currentProject c = some p)
    (hw : s.projectWatchers p = some w)
    (hfresh : w ≠ s.nextWatcherId) :
    (subscribeClient true c p s).1.projectWatchers p = some s.nextWatcherId ∧
    (subscribeClient true c p s).1.projectWatchers p ≠ some w ∧
    w ∈ (subscribeClient true c p s).1.stoppedWatchers ∧
    (subscribeClient true c p s).2 = [Frame.projectState p] ∧
    (subscribeClient true c p s).1.projectClients p = some [c] := by
  simp only [subscribeClient, hcur]
  simp only [unsubscribeClient, hc]
  have hfresh2 : ¬s.nextWatcherId = w := fun h => hfresh h.symm
  simp [hw, hfresh2]

/-- C10 witness: after client 0 subscribes to `/p` (watcher 0) and
re-subscribes to `/p`, watcher 0 has been stopped and watcher 1 is
running. -/
theorem C10_resubscribe_same_path_witness :
    (subscribeClient true 0 "/p" (runOps [HubOp.sub 0 "/p" true] initHub)).1.projectWatchers "/p" =
      some 1 ∧
    0 ∈ (subscribeClient true 0 "/p" (runOps [HubOp.sub 0 "/p" true] initHub)).1.stoppedWatchers :=
  have h := C10_resubscribe_same_path (runOps [HubOp.sub 0 "/p" true] initHub) 0 "/p" 0
    (by decide) (by decide) (by decide) (by decide)
  ⟨h.1, h.2.2.1⟩

theorem erase_nil_cases (c : Nat) (l : List Nat) (h : l.erase c = []) :
    l = [] ∨ l = [c] := by
  cases l with
  | nil => exact Or.inl rfl
  | cons x xs =>
    by_cases hx : x = c
    · subst hx
      simp [List.erase_cons] at h
      simp [h]
    · simp [List.erase_cons, hx] at h

theorem initHub_inv : HubInv initHub := by
  constructor
  · intro p clients h
    simp [initHub] at h
  · intro p
    rfl

theorem unsub_preserves (c : Nat) (p : String) (s : HubState) (h : HubInv s) :
    HubInv (unsubscribeClient c p s) := by
  obtain ⟨h1, h2⟩ := h
  unfold unsubscribeClient
  cases hc : s.projectClients p with
  | none => exact ⟨h1, h2⟩
  | some clients =>
    dsimp only
    by_cases he : (clients.erase c).isEmpty
    · rw [if_pos he]
      cases hw : s.projectWatchers p with
      | some w =>
        refine ⟨?_, ?_⟩
        · intro q cs hq
          by_cases hqp : q = p <;> simp_all
          exact h1 q cs hq
        · intro q
          by_cases hqp : q = p <;>
            simp_all [watcherExists, clientsNonempty]
      | none =>
        refine ⟨?_, ?_⟩
        · intro q cs hq
          by_cases hqp : q = p <;> simp_all
          exact h1 q cs hq
        · intro q
          by_cases hqp : q = p
          · subst hqp
            have := h2 q
            simp_all [watcherExists, clientsNonempty]
          · simp_all [watcherExists, clientsNonempty]
    · rw [if_neg he]
      refine ⟨?_, ?_⟩
      · intro q cs hq
        by_cases hqp : q = p
        · subst hqp
          simp at hq
          subst hq
          simp_all [List.isEmpty_iff]
        · simp [hqp] at hq
          exact h1 q cs hq
      · intro q
        by_cases hqp : q = p
        · subst hqp
          have hne := h1 q clients hc
          have h2p := h2 q
          simp_all [watcherExists, clientsNonempty]
          have hee : clients.erase c ≠ [] := by
            intro hnil
            rcases erase_nil_cases c clients hnil with h1 | h1 <;> simp_all
          cases hcl : clients <;> cases hce : clients.erase c <;> simp_all
        · simp_all [watcherExists, clientsNonempty]

theorem sub_preserves (c : Nat) (p : String) (s : HubState) (h : HubInv s) :
    HubInv (subscribeClient true c p s).1 := by
  have main : ∀ s1 : HubState, HubInv s1 →
      HubInv (
        let clients := (s1.projectClients p).getD []
        let clients' := if c ∈ clients then clients else clients ++ [c]
        let s2 := { s1 with
          projectClients := fun q => if q = p then some clients' else s1.projectClients q,
          currentProject := fun d => if d = c then some p else s1.currentProject d }
        if (s2.projectWatchers p).isNone then
          { s2 with
            projectWatchers := fun q =>
              if q = p then some s2.nextWatcherId else s2.projectWatchers q,
            nextWatcherId := s2.nextWatcherId + 1 }
        else s2) := by
    intro s1 h1
    obtain ⟨ha, hb⟩ := h1
    dsimp only
    have hcl : (if c ∈ (s1.projectClients p).getD [] then (s1.projectClients p).getD []
                else (s1.projectClients p).getD [] ++ [c]) ≠ [] := by
      by_cases hm : c ∈ (s1.projectClients p).getD []
      · simp only [if_pos hm]
        intro hx
        rw [hx] at hm
        simp at hm
      · simp [hm]
    cases hw : s1.projectWatchers p with
    | none =>
      simp only [hw, Option.isNone_none, if_pos]
      refine ⟨?_, ?_⟩
      · intro q cs hq
        by_cases hqp : q = p
        · subst hqp
          simp at hq
          subst hq
          exact hcl
        · simp [hqp] at hq
          exact ha q cs hq
      · intro q
        by_cases hqp : q = p
        · subst hqp
          simp_all [watcherExists, clientsNonempty, List.isEmpty_iff]
        · have := hb q
          simp_all [watcherExists, clientsNonempty]
    | some w =>
      simp only [hw, Option.isNone_some, Bool.false_eq_true, if_false]
      refine ⟨?_, ?_⟩
      · intro q cs hq
        by_cases hqp : q = p
        · subst hqp
          simp at hq
          subst hq
          exact hcl
        · simp [hqp] at hq
          exact ha q cs hq
      · intro q
        by_cases hqp : q = p
        · subst hqp
          simp_all [watcherExists, clientsNonempty, List.isEmpty_iff]
        · have := hb q
          simp_all [watcherExists, clientsNonempty]
  unfold subscribeClient
  cases hcur : s.currentProject c with
  | some prev => exact main (unsubscribeClient c prev s) (unsub_preserves c prev s h)
  | none => exact main s h

theorem runOps_preserves (ops : List HubOp) :
    ∀ s : HubState, HubInv s → (∀ op ∈ ops, op.startsOk = true) →
      HubInv (runOps ops s) := by
  induction ops with
  | nil => intro s h _; exact h
  | cons op rest ih =>
    intro s h hok
    have hop : HubInv (applyOp s op) := by
      cases op with
      | sub c q ok =>
        have : ok = true := hok (.sub c q ok) (by simp)
        subst this
        exact sub_preserves c q s h
      | unsub c q => exact unsub_preserves c q s h
    exact ih (applyOp s op) hop (fun o ho => hok o (by simp [ho]))

/-- C1 amended: for every sequence of Subscribe/Unsubscribe calls in
which every attempted watcher start succeeds, a watcher exists for a
path exactly when that path's subscriber set is non-empty, at every
point of the sequence (the theorem quantifies over all sequences, hence
over every prefix); at most one watcher per path holds structurally,
the watcher map being keyed by path. -/
theorem C1_watcher_iff_subscribers (ops : List HubOp)
    (hok : ∀ op ∈ ops, op.startsOk = true) (p : String) :
    watcherExists (runOps ops initHub) p =
      clientsNonempty (runOps ops initHub) p :=
  (runOps_preserves ops initHub initHub_inv hok).2 p

/-- C1 witness: two subscribes and one unsubscribe on `/p` keep the
equivalence. -/
theorem C1_watcher_iff_subscribers_witness :
    watcherExists (runOps [HubOp.sub 0 "/p" true, HubOp.sub 1 "/p" true,
        HubOp.unsub 0 "/p"] initHub) "/p" =
      clientsNonempty (runOps [HubOp.sub 0 "/p" true, HubOp.sub 1 "/p" true,
        HubOp.unsub 0 "/p"] initHub) "/p" :=
  C1_watcher_iff_subscribers [HubOp.sub 0 "/p" true, HubOp.sub 1 "/p" true,
    HubOp.unsub 0 "/p"] (by decide) "/p"

/-- C1 counterexample: when the watcher start fails during the first
subscribe (state root missing), the code leaves the client subscribed
with no watcher — the subscriber set is non-empty yet no watcher
exists, falsifying the unconditional "watcher exists iff subscriber set
non-empty". -/
theorem C1_start_failure_counterexample :
    clientsNonempty (runOps [HubOp.sub 0 "/p" false] initHub) "/p" = true ∧
    watcherExists (runOps [HubOp.sub 0 "/p" false] initHub) "/p" = false := by
  decide
